import Mathlib

/-!
Verification of the devWell dashboard's core logic: the record stores with
their five-minute read-through caches, the GitHub commit-sync orchestrator,
and the derived-metric arithmetic of the monthly report page.

Conventions of the embedding:
* Instants are naturals counting milliseconds since the Unix epoch, exactly
  the value of a JS `Date`.  `tz` is the offset (in ms, `0 ≤ tz < msPerDay`)
  added to UTC to obtain local time, so `getHours`, `setHours(0,0,0,0)` and
  friends are arithmetic on `t + tz`.
* `toISOString().split('T')[0]` (the UTC calendar date) is in bijection with
  the UTC day number `t / msPerDay`, so cache keys built from that date
  string are modelled with the day number.
* A JS `Map` is an association list; `set` prepends (later bindings shadow
  earlier ones, which is what `get` observes) and `clear` yields `[]`.
* Database responses are `Except Unit α` values passed to each service
  operation: the service code only ever sees `{ data, error }`.
* Numeric scores are `Int` (DB `int` columns, possibly null → `Option Int`),
  db `numeric` columns and derived averages are `ℚ`.
-/

/-! ## Time arithmetic -/

def msPerHour : Nat := 60 * 60 * 1000

def msPerDay : Nat := 24 * msPerHour

/-- `CACHE_DURATION = 5 * 60 * 1000` (five minutes), shared by every store. -/
def CACHE_DURATION : Nat := 5 * 60 * 1000

/-- UTC day number of an instant: determines (and is determined by) the
`YYYY-MM-DD` part of `toISOString()`. -/
def utcDay (t : Nat) : Nat := t / msPerDay

/-- Local calendar-day number of an instant under offset `tz`. -/
def localDay (tz t : Nat) : Nat := (t + tz) / msPerDay

/-- The instant of local midnight on the local day of `t`
(`new Date(t).setHours(0,0,0,0)`). -/
def localDayStart (tz t : Nat) : Nat := ((t + tz) / msPerDay) * msPerDay - tz

/-- `getHours()`: the local clock hour (0–23) of an instant. -/
def localHour (tz t : Nat) : Nat := ((t + tz) % msPerDay) / msPerHour

/-! ## Data rows

Only the columns the modelled functions actually read are carried; `id`,
`created_at` / `updated_at` and other metadata columns never influence the
logic under study. -/

structure SleepRow where
  user_id : String
  date : Nat
  start_time : Nat
  end_time : Nat
  duration_hours : ℚ
  quality_score : Option Int
  notes : Option String
deriving DecidableEq

structure CommitRow where
  user_id : String
  repository : String
  commit_hash : String
  commit_message : Option String
  commit_timestamp : Nat
deriving DecidableEq

/-- One `activity_insights` row (`ActivityInsight`); `date` is an epoch-day
number, nullable score columns are `Option Int`. -/
structure Insight where
  date : Nat
  sleep_score : Option Int
  productivity_score : Option Int
  commit_count : Int
  active_hours : ℚ
deriving DecidableEq

/-! ## Metrics aggregator (Reports page, Commits.tsx)

`calculateConsistencyScore` walks adjacent pairs of the insight array,
awarding one point per pair whose sleep scores differ by less than 20 and
one per pair whose productivity scores do; null scores read as 0 (`x || 0`).
-/

/-- Points accumulated by the `for (let i = 1; i < data.length; i++)` loop of
`calculateConsistencyScore`. -/
def consistencyPoints : List Insight → Nat
  | [] => 0
  | [_] => 0
  | a :: b :: rest =>
    (if (a.sleep_score.getD 0 - b.sleep_score.getD 0).natAbs < 20 then 1 else 0)
    + (if (a.productivity_score.getD 0 - b.productivity_score.getD 0).natAbs < 20 then 1 else 0)
    + consistencyPoints (b :: rest)

def calculateConsistencyScore (data : List Insight) : ℚ :=
  if data.length < 2 then 0
  else (consistencyPoints data : ℚ) / ((data.length - 1 : Nat) * 2 : Nat) * 100

def getPercentageChange (current previous : ℚ) : ℚ :=
  if previous = 0 then 100
  else (current - previous) / previous * 100

/-- Spec-side point count: one point per adjacent pair and criterion, phrased
over the zipped list of consecutive days. -/
def specPoints (data : List Insight) : Nat :=
  ((data.zip data.tail).map (fun p =>
    (if (p.1.sleep_score.getD 0 - p.2.sleep_score.getD 0).natAbs < 20 then 1 else 0)
    + (if (p.1.productivity_score.getD 0 - p.2.productivity_score.getD 0).natAbs < 20
       then 1 else 0))).sum

/-! ## The in-process cache

Each service owns `cache: Map<string, { data, timestamp }>`.  `mapGet`
models `Map.get`, prepending models `Map.set` (the freshest binding wins),
`[]` models `Map.clear()`. -/

structure Cached (α : Type) where
  data : α
  timestamp : Nat
deriving DecidableEq

def mapGet {α : Type} : List (String × Cached α) → String → Option (Cached α)
  | [], _ => none
  | (k, v) :: rest, key => if k = key then some v else mapGet rest key

/-- Outcome of one service read: the value handed to the caller, the cache
afterwards, and whether a backing-store round trip was made. -/
structure ReadOut (α γ : Type) where
  result : α
  cache : γ
  queried : Bool
deriving DecidableEq

/-! ## SleepService -/

abbrev SleepCache := List (String × Cached (List SleepRow))

def sleepRangeKey (userId : String) (startDate endDate : Nat) : String :=
  userId ++ "-" ++ toString startDate ++ "-" ++ toString endDate

/-- `SleepService.getSleepRecords`: serve from cache when the entry is
younger than `CACHE_DURATION`, otherwise query; an error degrades to `[]`
without touching the cache, a success repopulates the entry. -/
def getSleepRecords (c : SleepCache) (now : Nat) (userId : String)
    (startDate endDate : Nat) (resp : Except Unit (List SleepRow)) :
    ReadOut (List SleepRow) SleepCache :=
  let cacheKey := sleepRangeKey userId startDate endDate
  match mapGet c cacheKey with
  | some cached =>
    if now - cached.timestamp < CACHE_DURATION then ⟨cached.data, c, false⟩
    else
      match resp with
      | .error _ => ⟨[], c, true⟩
      | .ok data => ⟨data, (cacheKey, ⟨data, now⟩) :: c, true⟩
  | none =>
    match resp with
    | .error _ => ⟨[], c, true⟩
    | .ok data => ⟨data, (cacheKey, ⟨data, now⟩) :: c, true⟩

/-- `SleepService.addSleepRecord`: on a backing error return `null` leaving
the cache alone, on success return the inserted row and clear the whole
cache. -/
def addSleepRecord (c : SleepCache) (resp : Except Unit SleepRow) :
    Option SleepRow × SleepCache :=
  match resp with
  | .error _ => (none, c)
  | .ok data => (some data, [])

/-! ## InsightService -/

abbrev InsightCache := List (String × Cached (List Insight))

def insightRangeKey (userId : String) (startDate endDate : Nat) : String :=
  userId ++ "-" ++ toString startDate ++ "-" ++ toString endDate

/-- `InsightService.getInsights`: same read-through shape as the sleep
store. -/
def getInsights (c : InsightCache) (now : Nat) (userId : String)
    (startDate endDate : Nat) (resp : Except Unit (List Insight)) :
    ReadOut (List Insight) InsightCache :=
  let cacheKey := insightRangeKey userId startDate endDate
  match mapGet c cacheKey with
  | some cached =>
    if now - cached.timestamp < CACHE_DURATION then ⟨cached.data, c, false⟩
    else
      match resp with
      | .error _ => ⟨[], c, true⟩
      | .ok data => ⟨data, (cacheKey, ⟨data, now⟩) :: c, true⟩
  | none =>
    match resp with
    | .error _ => ⟨[], c, true⟩
    | .ok data => ⟨data, (cacheKey, ⟨data, now⟩) :: c, true⟩

/-- `InsightService.getLatestInsight`: single-row read (`.single()`), cached
as a one-element list; an error degrades to `null`. -/
def getLatestInsight (c : InsightCache) (now : Nat) (userId : String)
    (resp : Except Unit Insight) : ReadOut (Option Insight) InsightCache :=
  let cacheKey := "latest-" ++ userId
  match mapGet c cacheKey with
  | some cached =>
    if now - cached.timestamp < CACHE_DURATION then ⟨cached.data.head?, c, false⟩
    else
      match resp with
      | .error _ => ⟨none, c, true⟩
      | .ok data => ⟨some data, (cacheKey, ⟨[data], now⟩) :: c, true⟩
  | none =>
    match resp with
    | .error _ => ⟨none, c, true⟩
    | .ok data => ⟨some data, (cacheKey, ⟨[data], now⟩) :: c, true⟩

/-- `InsightService.upsertInsight`: null-and-keep-cache on error, clear the
whole cache on success. -/
def upsertInsight (c : InsightCache) (resp : Except Unit Insight) :
    Option Insight × InsightCache :=
  match resp with
  | .error _ => (none, c)
  | .ok data => (some data, [])

/-! ## CommitService

One untyped cache (`Map<string, { data: any, … }>`) holds both row lists
(keys `records-…`) and `{count, hours}` stats (keys `stats-…`); the value is
a sum.  The key discipline keeps the constructors apart, so the mismatched
branches below are unreachable in any composed run. -/

structure CommitStats where
  count : Nat
  hours : Nat
deriving DecidableEq

inductive CommitCacheVal where
  | rows (rs : List CommitRow)
  | stats (s : CommitStats)
deriving DecidableEq

abbrev CommitCache := List (String × Cached CommitCacheVal)

def commitRecordsKey (userId : String) (startDate endDate : Nat) : String :=
  "records-" ++ userId ++ "-" ++ toString startDate ++ "-" ++ toString endDate

/-- Key of a `getCommitStats` entry:
`stats-${userId}-${date.toISOString().split('T')[0]}`, i.e. the user id and
the UTC day number of the argument. -/
def commitStatsKey (userId : String) (date : Nat) : String :=
  "stats-" ++ userId ++ "-" ++ toString (utcDay date)

/-- `CommitService.getCommitRecords` (range read over `commit_timestamp`). -/
def getCommitRecords (c : CommitCache) (now : Nat) (userId : String)
    (startDate endDate : Nat) (resp : Except Unit (List CommitRow)) :
    ReadOut (List CommitRow) CommitCache :=
  let cacheKey := commitRecordsKey userId startDate endDate
  match mapGet c cacheKey with
  | some cached =>
    if now - cached.timestamp < CACHE_DURATION then
      ⟨(match cached.data with | .rows rs => rs | .stats _ => []), c, false⟩
    else
      match resp with
      | .error _ => ⟨[], c, true⟩
      | .ok data => ⟨data, (cacheKey, ⟨.rows data, now⟩) :: c, true⟩
  | none =>
    match resp with
    | .error _ => ⟨[], c, true⟩
    | .ok data => ⟨data, (cacheKey, ⟨.rows data, now⟩) :: c, true⟩

/-- `CommitService.getCommitStats`: the backing query returns the
`commit_timestamp` column of the selected rows; on a miss the service counts
them and counts distinct local clock hours (`new Set(….getHours()).size`),
then caches the stats under the UTC-date key. -/
def getCommitStats (c : CommitCache) (now tz : Nat) (userId : String)
    (date : Nat) (resp : Except Unit (List Nat)) :
    ReadOut CommitStats CommitCache :=
  let cacheKey := commitStatsKey userId date
  match mapGet c cacheKey with
  | some cached =>
    if now - cached.timestamp < CACHE_DURATION then
      ⟨(match cached.data with | .stats s => s | .rows _ => ⟨0, 0⟩), c, false⟩
    else
      match resp with
      | .error _ => ⟨⟨0, 0⟩, c, true⟩
      | .ok data =>
        let stats : CommitStats := ⟨data.length, (data.map (localHour tz)).dedup.length⟩
        ⟨stats, (cacheKey, ⟨.stats stats, now⟩) :: c, true⟩
  | none =>
    match resp with
    | .error _ => ⟨⟨0, 0⟩, c, true⟩
    | .ok data =>
      let stats : CommitStats := ⟨data.length, (data.map (localHour tz)).dedup.length⟩
      ⟨stats, (cacheKey, ⟨.stats stats, now⟩) :: c, true⟩

/-- `CommitService.addCommitRecord`: null-and-keep-cache on error, clear the
whole cache on success. -/
def addCommitRecord (c : CommitCache) (resp : Except Unit CommitRow) :
    Option CommitRow × CommitCache :=
  match resp with
  | .error _ => (none, c)
  | .ok data => (some data, [])

/-! ## The backing `commit_records` table

`supabaseInsertCommit` is the managed store's insert under the
`UNIQUE(user_id, commit_hash)` constraint: a conflicting insert answers with
an error and leaves the table alone.  `commitDayQuery` is the
timestamp-range select issued by `getCommitStats` (bounds are local midnight
and local 23:59:59.999 of the argument's local day). -/

/-- Whether the table already holds a row for the dedup key
`(user id, commit hash)`. -/
def hasKey (table : List CommitRow) (u h : String) : Bool :=
  table.any (fun q => q.user_id == u && q.commit_hash == h)

def supabaseInsertCommit (table : List CommitRow) (r : CommitRow) :
    Except Unit CommitRow × List CommitRow :=
  if hasKey table r.user_id r.commit_hash
  then (.error (), table)
  else (.ok r, table ++ [r])

def commitDayQuery (table : List CommitRow) (tz : Nat) (userId : String)
    (date : Nat) : List Nat :=
  let lo := localDayStart tz date
  let hi := lo + (msPerDay - 1)
  (table.filter (fun r =>
    r.user_id == userId && lo ≤ r.commit_timestamp && r.commit_timestamp ≤ hi)).map
    (·.commit_timestamp)

/-- `getCommitStats` run against the actual table (cache miss or hit decided
by `c` as usual, the query answered honestly from `table`). -/
def getCommitStatsDb (table : List CommitRow) (c : CommitCache) (now tz : Nat)
    (userId : String) (date : Nat) : ReadOut CommitStats CommitCache :=
  getCommitStats c now tz userId date (.ok (commitDayQuery table tz userId date))

/-! ## GitHubService (lib/github.ts) -/

structure GhCommit where
  sha : String
  message : Option String
deriving DecidableEq

/-- One activity event as returned by
`octokit.activity.listEventsForAuthenticatedUser`; `payload_commits` is the
`commits` field of the payload, absent (`none`) when the payload carries no
such key. -/
structure GhEvent where
  type : String
  repo_name : String
  created_at : Option Nat
  payload_commits : Option (List GhCommit)
deriving DecidableEq

structure GhRequest where
  username : String
  per_page : Nat
  since : Nat
deriving DecidableEq

namespace GitHubService

/-- `GitHubService.getCommits`: issues one request (`per_page: 100`,
`since`), then keeps the events with `type === 'PushEvent'` whose payload
has a `commits` key (`'commits' in payload`).  `apiEvents` is the page the
API answered with. -/
def getCommits (since : Nat) (apiEvents : List GhEvent) :
    GhRequest × List GhEvent :=
  (⟨"me", 100, since⟩,
   apiEvents.filter (fun e => e.type == "PushEvent" && e.payload_commits.isSome))

end GitHubService

/-! ## GitHubSyncService

`syncCommits` walks the fetched events; for each event whose payload has a
commit list it inserts one row per commit through
`CommitService.addCommitRecord`, threading the table and the service cache.
The fetch itself is the only `throw` site, so with the event page given the
loop always ends in `return true`. -/

/-- The row `syncCommits` builds for one embedded commit: the event's repo
name and timestamp (falling back to `new Date()` = `nowTs` when the event
carries none), the commit's message and sha. -/
def syncRow (userId : String) (nowTs : Nat) (ev : GhEvent) (cd : GhCommit) :
    CommitRow :=
  { user_id := userId
    repository := ev.repo_name
    commit_hash := cd.sha
    commit_message := cd.message
    commit_timestamp := ev.created_at.getD nowTs }

/-- One `addCommitRecord` call against the live table: the store answers the
insert under its unique constraint, the service swallows a conflict into
`null` and clears its cache only on success. -/
def addCommitRecordDb (st : List CommitRow × CommitCache) (r : CommitRow) :
    List CommitRow × CommitCache :=
  let (resp, table2) := supabaseInsertCommit st.1 r
  let (_, c2) := addCommitRecord st.2 resp
  (table2, c2)

/-- `GitHubSyncService.syncCommits` over an already-fetched event page:
`for (const commit of commits) if (commit.payload.commits) for (const
commitData of commit.payload.commits) await addCommitRecord(…)`. -/
def syncCommits (userId : String) (nowTs : Nat) (events : List GhEvent)
    (st : List CommitRow × CommitCache) :
    Bool × List CommitRow × CommitCache :=
  let st2 := events.foldl (fun st ev =>
    match ev.payload_commits with
    | none => st
    | some cs => cs.foldl (fun st cd => addCommitRecordDb st (syncRow userId nowTs ev cd)) st) st
  (true, st2)

/-- The table transition of one store insert: a conflicting row is dropped,
a fresh one appended. -/
def insertNoConflict (table : List CommitRow) (r : CommitRow) : List CommitRow :=
  (supabaseInsertCommit table r).2

/-- The table transition of one event of the sync loop. -/
def syncEventTable (u : String) (nowTs : Nat) (t : List CommitRow)
    (ev : GhEvent) : List CommitRow :=
  ((ev.payload_commits.getD []).map (syncRow u nowTs ev)).foldl insertNoConflict t

/-- All rows one `syncCommits` run attempts to insert, in order. -/
def rowsOf (u : String) (nowTs : Nat) (events : List GhEvent) : List CommitRow :=
  events.flatMap (fun ev => (ev.payload_commits.getD []).map (syncRow u nowTs ev))

/-- The `UNIQUE(user_id, commit_hash)` state invariant: no two rows share
the dedup key. -/
def CommitUniq (table : List CommitRow) : Prop :=
  List.Pairwise (fun a b => ¬(a.user_id = b.user_id ∧ a.commit_hash = b.commit_hash)) table

/-! ## Reports page (Commits.tsx): weekly bucketing

`eachWeekOfInterval` (date-fns, default `weekStartsOn: 0`) lists the starts
of the Sunday-aligned weeks meeting the month.  Days are epoch-day numbers;
epoch day 0 (1970-01-01) was a Thursday, so a day `d` is a Sunday exactly
when `d % 7 = 3`. -/

def startOfSundayWeek (d : Nat) : Nat := d - (d + 4) % 7

def eachWeekOfInterval (start endDay : Nat) : List Nat :=
  let w0 := startOfSundayWeek start
  (List.range ((startOfSundayWeek endDay - w0) / 7 + 1)).map (fun i => w0 + 7 * i)

/-- The filter body of `weeklyData`, mutation included: the JS predicate is
`insightDate >= weekStart && insightDate < new Date(weekStart.setDate(
weekStart.getDate() + 7))`, whose right operand advances the shared
`weekStart` object by seven days every time it is evaluated (it is skipped
when the left conjunct is false).  The second component is the mutated
`weekStart` handed to the rest of the traversal. -/
def weekFilterAux (w : Nat) : List Insight → List Insight × Nat
  | [] => ([], w)
  | i :: rest =>
    if w ≤ i.date then
      let keep := i.date < w + 7
      let (tail, w2) := weekFilterAux (w + 7) rest
      (if keep then i :: tail else tail, w2)
    else
      let (tail, w2) := weekFilterAux w rest
      (tail, w2)

def weekInsightsOf (w : Nat) (insights : List Insight) : List Insight :=
  (weekFilterAux w insights).1

/-- `sum / length || 0`: the empty case reads `NaN || 0 = 0`. -/
def avgQ (l : List ℚ) : ℚ := if l.length = 0 then 0 else l.sum / l.length

structure WeekBucket where
  week : Nat
  commits : Int
  sleep : ℚ
  productivity : ℚ
  activeHours : ℚ
deriving DecidableEq

/-- `weeklyData`: one bucket per `eachWeekOfInterval` week of the selected
month, aggregating the insights its (mutating) filter retains. -/
def weeklyData (monthStart monthEnd : Nat) (insights : List Insight) :
    List WeekBucket :=
  (eachWeekOfInterval monthStart monthEnd).enum.map (fun p =>
    let wk := weekInsightsOf p.2 insights
    { week := p.1 + 1
      commits := (wk.map (·.commit_count)).sum
      sleep := avgQ (wk.map (fun i => ((i.sleep_score.getD 0 : Int) : ℚ)))
      productivity := avgQ (wk.map (fun i => ((i.productivity_score.getD 0 : Int) : ℚ)))
      activeHours := (wk.map (·.active_hours)).sum })

/-- Spec-side bucket membership: the insights of the calendar week starting
at `w`, independent of their position in the array. -/
def specWeekInsights (w : Nat) (insights : List Insight) : List Insight :=
  insights.filter (fun i => w ≤ i.date && i.date < w + 7)

/-! ## Theorems -/

theorem consistencyPoints_eq_specPoints (data : List Insight) :
    consistencyPoints data = specPoints data := by
  induction data with
  | nil => rfl
  | cons a t ih =>
    cases t with
    | nil => rfl
    | cons b rest =>
      simp only [consistencyPoints, specPoints, List.zip, List.tail_cons,
        List.zipWith_cons_cons, List.map_cons, List.sum_cons] at *
      omega

/-- C5: over any ordered-by-date insight sequence the consistency score is
`points / (2·(n-1)) · 100`, where each adjacent pair contributes one point
per criterion (sleep delta < 20, productivity delta < 20); it is 0 for
fewer than two days, and two days with identical scores give 100. -/
theorem calculateConsistencyScore_spec (data : List Insight) :
    (data.length < 2 → calculateConsistencyScore data = 0)
    ∧ (2 ≤ data.length →
        calculateConsistencyScore data
          = (specPoints data : ℚ) / (2 * ((data.length - 1 : Nat) : ℚ)) * 100)
    ∧ (∀ x : Insight, calculateConsistencyScore [x, x] = 100) := by
  refine ⟨fun h => by simp [calculateConsistencyScore, h], fun h => ?_, fun x => ?_⟩
  · rw [calculateConsistencyScore, if_neg (by omega), consistencyPoints_eq_specPoints]
    push_cast
    ring_nf
  · simp [calculateConsistencyScore, consistencyPoints]

/-- C5 witness: the two-identical-days instance `[x, x]` with
`x = ⟨day 0, sleep 80, productivity 75, 3 commits, 2 active hours⟩`. -/
theorem calculateConsistencyScore_spec_witness :
    2 ≤ ([⟨0, some 80, some 75, 3, 2⟩, ⟨0, some 80, some 75, 3, 2⟩] : List Insight).length
    ∧ calculateConsistencyScore
        [⟨0, some 80, some 75, 3, 2⟩, ⟨0, some 80, some 75, 3, 2⟩]
      = (specPoints [⟨0, some 80, some 75, 3, 2⟩, ⟨0, some 80, some 75, 3, 2⟩] : ℚ)
          / (2 * ((([⟨0, some 80, some 75, 3, 2⟩,
              (⟨0, some 80, some 75, 3, 2⟩ : Insight)] : List Insight).length - 1 : Nat) : ℚ)) * 100
    ∧ calculateConsistencyScore
        [(⟨0, some 80, some 75, 3, 2⟩ : Insight), ⟨0, some 80, some 75, 3, 2⟩] = 100 := by
  refine ⟨by norm_num, ?_, ?_⟩
  · exact (calculateConsistencyScore_spec
      [⟨0, some 80, some 75, 3, 2⟩, ⟨0, some 80, some 75, 3, 2⟩]).2.1 (by norm_num)
  · exact (calculateConsistencyScore_spec [] ).2.2 ⟨0, some 80, some 75, 3, 2⟩

/-- C6: percentage change is `(current - previous)/previous · 100` for
nonzero `previous` and exactly 100 when `previous = 0`, whatever `current`
is (including 0). -/
theorem getPercentageChange_spec (current previous : ℚ) :
    (previous ≠ 0 →
      getPercentageChange current previous = (current - previous) / previous * 100)
    ∧ getPercentageChange current 0 = 100 := by
  constructor
  · intro h
    simp [getPercentageChange, h]
  · simp [getPercentageChange]

/-- C6 witness: `previous = 4` is nonzero, and the zero-previous case at
`current = 0`. -/
theorem getPercentageChange_spec_witness :
    ((4 : ℚ) ≠ 0 ∧ getPercentageChange 5 4 = (5 - 4) / 4 * 100)
    ∧ getPercentageChange 0 0 = 100 := by
  refine ⟨⟨by norm_num, (getPercentageChange_spec 5 4).1 (by norm_num)⟩, ?_⟩
  exact (getPercentageChange_spec 0 0).2

/-- C7: no read operation of any store propagates a backing failure to its
caller.  When the read actually consults the backing store (its key is not
cached) and the store reports an error, the range reads of all three stores
return `[]`, the single-row read `getLatestInsight` returns `null`, and the
stats read `getCommitStats` returns `{count 0, hours 0}` — in every case
with an `.ok` outcome exactly the value a successful read finding no rows
would give, so the caller cannot tell "no data" from "read failed". -/
theorem reads_swallow_backing_errors (cS : SleepCache) (cC : CommitCache)
    (cI : InsightCache) (now tz : Nat) (u : String) (s e d : Nat)
    (hS : mapGet cS (sleepRangeKey u s e) = none)
    (hC : mapGet cC (commitRecordsKey u s e) = none)
    (hK : mapGet cC (commitStatsKey u d) = none)
    (hI : mapGet cI (insightRangeKey u s e) = none)
    (hL : mapGet cI ("latest-" ++ u) = none) :
    ((getSleepRecords cS now u s e (.error ())).result = []
      ∧ (getSleepRecords cS now u s e (.error ())).result
          = (getSleepRecords cS now u s e (.ok [])).result
      ∧ (getSleepRecords cS now u s e (.error ())).queried = true)
    ∧ ((getCommitRecords cC now u s e (.error ())).result = []
      ∧ (getCommitRecords cC now u s e (.error ())).result
          = (getCommitRecords cC now u s e (.ok [])).result
      ∧ (getCommitRecords cC now u s e (.error ())).queried = true)
    ∧ ((getInsights cI now u s e (.error ())).result = []
      ∧ (getInsights cI now u s e (.error ())).result
          = (getInsights cI now u s e (.ok [])).result
      ∧ (getInsights cI now u s e (.error ())).queried = true)
    ∧ ((getLatestInsight cI now u (.error ())).result = none
      ∧ (getLatestInsight cI now u (.error ())).queried = true)
    ∧ ((getCommitStats cC now tz u d (.error ())).result = ⟨0, 0⟩
      ∧ (getCommitStats cC now tz u d (.error ())).result
          = (getCommitStats cC now tz u d (.ok [])).result
      ∧ (getCommitStats cC now tz u d (.error ())).queried = true) := by
  refine ⟨⟨?_, ?_, ?_⟩, ⟨?_, ?_, ?_⟩, ⟨?_, ?_, ?_⟩, ⟨?_, ?_⟩, ⟨?_, ?_, ?_⟩⟩ <;>
    simp [getSleepRecords, getCommitRecords, getInsights, getLatestInsight,
      getCommitStats, hS, hC, hK, hI, hL]

/-- C7 witness: empty caches at time 0 (offset 0) for user `"u"` over the
range `[0, 1]` and stats date 0. -/
theorem reads_swallow_backing_errors_witness :
    (mapGet ([] : SleepCache) (sleepRangeKey "u" 0 1) = none
      ∧ mapGet ([] : CommitCache) (commitRecordsKey "u" 0 1) = none
      ∧ mapGet ([] : CommitCache) (commitStatsKey "u" 0) = none
      ∧ mapGet ([] : InsightCache) (insightRangeKey "u" 0 1) = none
      ∧ mapGet ([] : InsightCache) ("latest-" ++ "u") = none)
    ∧ ((getSleepRecords [] 0 "u" 0 1 (.error ())).result = []
      ∧ (getSleepRecords [] 0 "u" 0 1 (.error ())).result
          = (getSleepRecords [] 0 "u" 0 1 (.ok [])).result
      ∧ (getSleepRecords [] 0 "u" 0 1 (.error ())).queried = true)
    ∧ ((getCommitRecords [] 0 "u" 0 1 (.error ())).result = []
      ∧ (getCommitRecords [] 0 "u" 0 1 (.error ())).result
          = (getCommitRecords [] 0 "u" 0 1 (.ok [])).result
      ∧ (getCommitRecords [] 0 "u" 0 1 (.error ())).queried = true)
    ∧ ((getInsights [] 0 "u" 0 1 (.error ())).result = []
      ∧ (getInsights [] 0 "u" 0 1 (.error ())).result
          = (getInsights [] 0 "u" 0 1 (.ok [])).result
      ∧ (getInsights [] 0 "u" 0 1 (.error ())).queried = true)
    ∧ ((getLatestInsight [] 0 "u" (.error ())).result = none
      ∧ (getLatestInsight [] 0 "u" (.error ())).queried = true)
    ∧ ((getCommitStats [] 0 0 "u" 0 (.error ())).result = ⟨0, 0⟩
      ∧ (getCommitStats [] 0 0 "u" 0 (.error ())).result
          = (getCommitStats [] 0 0 "u" 0 (.ok [])).result
      ∧ (getCommitStats [] 0 0 "u" 0 (.error ())).queried = true) := by
  have h := reads_swallow_backing_errors ([] : SleepCache) ([] : CommitCache)
    ([] : InsightCache) 0 0 "u" 0 1 0 rfl rfl rfl rfl rfl
  exact ⟨⟨rfl, rfl, rfl, rfl, rfl⟩, h.1, h.2.1, h.2.2.1, h.2.2.2.1, h.2.2.2.2⟩

/-- C9: a write whose backing call fails returns `null` and leaves the
store's cache — entries and timestamps — exactly as it was, in all three
write paths; a still-fresh entry therefore keeps serving the pre-write data
with no backing round trip. -/
theorem failed_writes_leave_cache_untouched (cS : SleepCache) (cC : CommitCache)
    (cI : InsightCache) (now : Nat) (u : String) (s e : Nat)
    (d : List SleepRow) (ts : Nat) (resp : Except Unit (List SleepRow))
    (hhit : mapGet cS (sleepRangeKey u s e) = some ⟨d, ts⟩)
    (hfresh : now - ts < CACHE_DURATION) :
    addSleepRecord cS (.error ()) = (none, cS)
    ∧ addCommitRecord cC (.error ()) = (none, cC)
    ∧ upsertInsight cI (.error ()) = (none, cI)
    ∧ (getSleepRecords (addSleepRecord cS (.error ())).2 now u s e resp).result = d
    ∧ (getSleepRecords (addSleepRecord cS (.error ())).2 now u s e resp).queried = false := by
  refine ⟨rfl, rfl, rfl, ?_, ?_⟩ <;>
    simp [getSleepRecords, addSleepRecord, hhit, hfresh]

/-- C9 witness: a one-entry sleep cache populated at time 0, written to and
re-read at time 1. -/
theorem failed_writes_leave_cache_untouched_witness :
    mapGet [(sleepRangeKey "u" 0 1, ⟨[], 0⟩)] (sleepRangeKey "u" 0 1)
        = some (⟨[], 0⟩ : Cached (List SleepRow))
    ∧ (1 : Nat) - 0 < CACHE_DURATION
    ∧ (addSleepRecord [(sleepRangeKey "u" 0 1, ⟨[], 0⟩)] (.error ())
        = (none, [(sleepRangeKey "u" 0 1, ⟨[], 0⟩)])
      ∧ addCommitRecord [] (.error ()) = (none, [])
      ∧ upsertInsight [] (.error ()) = (none, [])
      ∧ (getSleepRecords
          (addSleepRecord [(sleepRangeKey "u" 0 1, ⟨[], 0⟩)] (.error ())).2
          1 "u" 0 1 (.error ())).result = []
      ∧ (getSleepRecords
          (addSleepRecord [(sleepRangeKey "u" 0 1, ⟨[], 0⟩)] (.error ())).2
          1 "u" 0 1 (.error ())).queried = false) := by
  refine ⟨by simp [mapGet], by decide, ?_⟩
  exact failed_writes_leave_cache_untouched
    [(sleepRangeKey "u" 0 1, ⟨[], 0⟩)] [] [] 1 "u" 0 1 [] 0 (.error ())
    (by simp [mapGet]) (by decide)

/-- C4: in each record store, after a read populates the cache a second read
of the same (operation, parameter) key within five minutes answers from the
cache with no backing round trip (whatever the backing store would have
said); a successful write then clears the store's entire cache — not just
the written key — so the next read goes back to the store and (shown for the
sleep store) repopulates its entry. -/
theorem store_cache_window_and_invalidation
    (cS : SleepCache) (cC : CommitCache) (cI : InsightCache)
    (now1 now2 now3 : Nat) (u : String) (s e : Nat)
    (dS data3 : List SleepRow) (dC : List CommitRow) (dI : List Insight)
    (rowS : SleepRow) (rowC : CommitRow) (rowI : Insight)
    (respS : Except Unit (List SleepRow)) (respC : Except Unit (List CommitRow))
    (respI : Except Unit (List Insight))
    (hS : mapGet cS (sleepRangeKey u s e) = none)
    (hC : mapGet cC (commitRecordsKey u s e) = none)
    (hI : mapGet cI (insightRangeKey u s e) = none)
    (hfresh : now2 - now1 < CACHE_DURATION) :
    ((getSleepRecords cS now1 u s e (.ok dS)).queried = true
      ∧ (getSleepRecords (getSleepRecords cS now1 u s e (.ok dS)).cache
          now2 u s e respS).result = dS
      ∧ (getSleepRecords (getSleepRecords cS now1 u s e (.ok dS)).cache
          now2 u s e respS).queried = false
      ∧ (addSleepRecord (getSleepRecords cS now1 u s e (.ok dS)).cache (.ok rowS)).2 = []
      ∧ (getSleepRecords
          (addSleepRecord (getSleepRecords cS now1 u s e (.ok dS)).cache (.ok rowS)).2
          now3 u s e (.ok data3)).queried = true
      ∧ (getSleepRecords
          (addSleepRecord (getSleepRecords cS now1 u s e (.ok dS)).cache (.ok rowS)).2
          now3 u s e (.ok data3)).result = data3
      ∧ mapGet (getSleepRecords
          (addSleepRecord (getSleepRecords cS now1 u s e (.ok dS)).cache (.ok rowS)).2
          now3 u s e (.ok data3)).cache (sleepRangeKey u s e)
        = some ⟨data3, now3⟩)
    ∧ ((getCommitRecords cC now1 u s e (.ok dC)).queried = true
      ∧ (getCommitRecords (getCommitRecords cC now1 u s e (.ok dC)).cache
          now2 u s e respC).result = dC
      ∧ (getCommitRecords (getCommitRecords cC now1 u s e (.ok dC)).cache
          now2 u s e respC).queried = false
      ∧ (addCommitRecord (getCommitRecords cC now1 u s e (.ok dC)).cache (.ok rowC)).2 = []
      ∧ (getCommitRecords
          (addCommitRecord (getCommitRecords cC now1 u s e (.ok dC)).cache (.ok rowC)).2
          now3 u s e (.ok dC)).queried = true)
    ∧ ((getInsights cI now1 u s e (.ok dI)).queried = true
      ∧ (getInsights (getInsights cI now1 u s e (.ok dI)).cache
          now2 u s e respI).result = dI
      ∧ (getInsights (getInsights cI now1 u s e (.ok dI)).cache
          now2 u s e respI).queried = false
      ∧ (upsertInsight (getInsights cI now1 u s e (.ok dI)).cache (.ok rowI)).2 = []
      ∧ (getInsights
          (upsertInsight (getInsights cI now1 u s e (.ok dI)).cache (.ok rowI)).2
          now3 u s e (.ok dI)).queried = true) := by
  refine ⟨⟨?_, ?_, ?_, ?_, ?_, ?_, ?_⟩, ⟨?_, ?_, ?_, ?_, ?_⟩, ⟨?_, ?_, ?_, ?_, ?_⟩⟩ <;>
    simp [getSleepRecords, getCommitRecords, getInsights, addSleepRecord,
      addCommitRecord, upsertInsight, mapGet, hS, hC, hI, hfresh]

/-- C4 witness: empty caches; reads at time 0, re-reads at time 1, writes,
reads again at time 2, for user `"u"` and range `[0, 1]`. -/
theorem store_cache_window_and_invalidation_witness :
    (mapGet ([] : SleepCache) (sleepRangeKey "u" 0 1) = none
      ∧ mapGet ([] : CommitCache) (commitRecordsKey "u" 0 1) = none
      ∧ mapGet ([] : InsightCache) (insightRangeKey "u" 0 1) = none
      ∧ (1 : Nat) - 0 < CACHE_DURATION)
    ∧ ((getSleepRecords [] 0 "u" 0 1 (.ok [])).queried = true
      ∧ (getSleepRecords (getSleepRecords [] 0 "u" 0 1 (.ok [])).cache
          1 "u" 0 1 (.error ())).result = []
      ∧ (getSleepRecords (getSleepRecords [] 0 "u" 0 1 (.ok [])).cache
          1 "u" 0 1 (.error ())).queried = false
      ∧ (addSleepRecord (getSleepRecords [] 0 "u" 0 1 (.ok [])).cache
          (.ok ⟨"u", 0, 0, 1, 1, none, none⟩)).2 = []
      ∧ (getSleepRecords
          (addSleepRecord (getSleepRecords [] 0 "u" 0 1 (.ok [])).cache
            (.ok ⟨"u", 0, 0, 1, 1, none, none⟩)).2
          2 "u" 0 1 (.ok [])).queried = true
      ∧ (getSleepRecords
          (addSleepRecord (getSleepRecords [] 0 "u" 0 1 (.ok [])).cache
            (.ok ⟨"u", 0, 0, 1, 1, none, none⟩)).2
          2 "u" 0 1 (.ok [])).result = []
      ∧ mapGet (getSleepRecords
          (addSleepRecord (getSleepRecords [] 0 "u" 0 1 (.ok [])).cache
            (.ok ⟨"u", 0, 0, 1, 1, none, none⟩)).2
          2 "u" 0 1 (.ok [])).cache (sleepRangeKey "u" 0 1)
        = some ⟨[], 2⟩)
    ∧ ((getCommitRecords [] 0 "u" 0 1 (.ok [])).queried = true
      ∧ (getCommitRecords (getCommitRecords [] 0 "u" 0 1 (.ok [])).cache
          1 "u" 0 1 (.error ())).result = []
      ∧ (getCommitRecords (getCommitRecords [] 0 "u" 0 1 (.ok [])).cache
          1 "u" 0 1 (.error ())).queried = false
      ∧ (addCommitRecord (getCommitRecords [] 0 "u" 0 1 (.ok [])).cache
          (.ok ⟨"u", "alpha", "h1", none, 0⟩)).2 = []
      ∧ (getCommitRecords
          (addCommitRecord (getCommitRecords [] 0 "u" 0 1 (.ok [])).cache
            (.ok ⟨"u", "alpha", "h1", none, 0⟩)).2
          2 "u" 0 1 (.ok [])).queried = true)
    ∧ ((getInsights [] 0 "u" 0 1 (.ok [])).queried = true
      ∧ (getInsights (getInsights [] 0 "u" 0 1 (.ok [])).cache
          1 "u" 0 1 (.error ())).result = []
      ∧ (getInsights (getInsights [] 0 "u" 0 1 (.ok [])).cache
          1 "u" 0 1 (.error ())).queried = false
      ∧ (upsertInsight (getInsights [] 0 "u" 0 1 (.ok [])).cache
          (.ok ⟨0, none, none, 0, 0⟩)).2 = []
      ∧ (getInsights
          (upsertInsight (getInsights [] 0 "u" 0 1 (.ok [])).cache
            (.ok ⟨0, none, none, 0, 0⟩)).2
          2 "u" 0 1 (.ok [])).queried = true) := by
  exact ⟨⟨rfl, rfl, rfl, by decide⟩,
    (store_cache_window_and_invalidation [] [] [] 0 1 2 "u" 0 1 [] [] [] []
      ⟨"u", 0, 0, 1, 1, none, none⟩ ⟨"u", "alpha", "h1", none, 0⟩ ⟨0, none, none, 0, 0⟩
      (.error ()) (.error ()) (.error ()) rfl rfl rfl (by decide)).1,
    (store_cache_window_and_invalidation [] [] [] 0 1 2 "u" 0 1 [] [] [] []
      ⟨"u", 0, 0, 1, 1, none, none⟩ ⟨"u", "alpha", "h1", none, 0⟩ ⟨0, none, none, 0, 0⟩
      (.error ()) (.error ()) (.error ()) rfl rfl rfl (by decide)).2.1,
    (store_cache_window_and_invalidation [] [] [] 0 1 2 "u" 0 1 [] [] [] []
      ⟨"u", 0, 0, 1, 1, none, none⟩ ⟨"u", "alpha", "h1", none, 0⟩ ⟨0, none, none, 0, 0⟩
      (.error ()) (.error ()) (.error ()) rfl rfl rfl (by decide)).2.2⟩

/-- C10: the `getCommitStats` cache key is `stats-user-⟨UTC date⟩`, so two
calls within the five-minute window whose `date` arguments share a UTC
calendar day hit the same entry: the second call returns the first call's
cached stats without a backing round trip, even when the two arguments'
local calendar days (which drive the queried window) differ. -/
theorem getCommitStats_key_is_utc_date (c : CommitCache) (now1 now2 tz : Nat)
    (u : String) (t1 t2 : Nat) (data : List Nat) (resp2 : Except Unit (List Nat))
    (hmiss : mapGet c (commitStatsKey u t1) = none)
    (hday : t1 / msPerDay = t2 / msPerDay)
    (hfresh : now2 - now1 < CACHE_DURATION) :
    (getCommitStats (getCommitStats c now1 tz u t1 (.ok data)).cache
        now2 tz u t2 resp2).result
      = (getCommitStats c now1 tz u t1 (.ok data)).result
    ∧ (getCommitStats (getCommitStats c now1 tz u t1 (.ok data)).cache
        now2 tz u t2 resp2).queried = false := by
  have hk : commitStatsKey u t2 = commitStatsKey u t1 := by
    simp [commitStatsKey, utcDay, hday]
  constructor <;>
    simp [getCommitStats, mapGet, hmiss, hfresh, hk]

/-- C10 witness: offset UTC+5:30; `t1` (23:00 UTC) and `t2` (01:00 UTC) of
the same UTC day fall on different local calendar days, yet the second call
is served from the first call's entry. -/
theorem getCommitStats_key_is_utc_date_witness :
    (mapGet ([] : CommitCache) (commitStatsKey "u" (msPerDay + 23 * msPerHour)) = none
      ∧ (msPerDay + 23 * msPerHour) / msPerDay = (msPerDay + msPerHour) / msPerDay
      ∧ (1 : Nat) - 0 < CACHE_DURATION)
    ∧ localDay 19800000 (msPerDay + 23 * msPerHour) ≠ localDay 19800000 (msPerDay + msPerHour)
    ∧ ((getCommitStats (getCommitStats [] 0 19800000 "u" (msPerDay + 23 * msPerHour)
          (.ok [msPerDay + 23 * msPerHour])).cache
          1 19800000 "u" (msPerDay + msPerHour) (.error ())).result
        = (getCommitStats [] 0 19800000 "u" (msPerDay + 23 * msPerHour)
            (.ok [msPerDay + 23 * msPerHour])).result
      ∧ (getCommitStats (getCommitStats [] 0 19800000 "u" (msPerDay + 23 * msPerHour)
          (.ok [msPerDay + 23 * msPerHour])).cache
          1 19800000 "u" (msPerDay + msPerHour) (.error ())).queried = false) := by
  refine ⟨⟨rfl, by decide, by decide⟩, by decide, ?_⟩
  exact getCommitStats_key_is_utc_date [] 0 1 19800000 "u"
    (msPerDay + 23 * msPerHour) (msPerDay + msPerHour)
    [msPerDay + 23 * msPerHour] (.error ()) rfl (by decide) (by decide)

/-- An instant lies in the `[setHours(0,0,0,0), setHours(23,59,59,999)]`
window of `date` exactly when it falls on the same local calendar day
(for any date from 1970-01-02 on, so the window start does not underflow). -/
theorem dayWindow_iff (tz date t : Nat) (hdate : msPerDay ≤ date) :
    (localDayStart tz date ≤ t ∧ t ≤ localDayStart tz date + (msPerDay - 1))
      ↔ localDay tz t = localDay tz date := by
  simp only [localDayStart, localDay, msPerDay, msPerHour] at *
  omega

/-- The range select of `getCommitStats` returns precisely the timestamps of
the user's rows on the argument's local calendar day. -/
theorem commitDayQuery_eq_day_filter (table : List CommitRow) (tz : Nat)
    (u : String) (date : Nat) (hdate : msPerDay ≤ date) :
    commitDayQuery table tz u date
      = (table.filter (fun r =>
          r.user_id == u && localDay tz r.commit_timestamp == localDay tz date)).map
          (·.commit_timestamp) := by
  unfold commitDayQuery
  refine congrArg _ (List.filter_congr fun r _ => ?_)
  rw [Bool.eq_iff_iff]
  simp only [Bool.and_eq_true, decide_eq_true_eq, beq_iff_eq, and_assoc]
  exact and_congr_right fun _ => dayWindow_iff tz date r.commit_timestamp hdate

/-- C3: for every user and date, `getCommitStats` (on a cache miss, queried
against the table) returns `count` = the number of the user's commit rows
whose timestamp falls on the given local calendar day and `hours` = the
number of distinct local clock hours among those timestamps. -/
theorem getCommitStats_day_count_and_hours (table : List CommitRow)
    (now tz : Nat) (u : String) (date : Nat) (hdate : msPerDay ≤ date) :
    (getCommitStatsDb table [] now tz u date).result
      = ⟨(table.filter (fun r =>
            r.user_id == u && localDay tz r.commit_timestamp == localDay tz date)).length,
          ((table.filter (fun r =>
            r.user_id == u && localDay tz r.commit_timestamp == localDay tz date)).map
            (fun r => localHour tz r.commit_timestamp)).dedup.length⟩ := by
  have hq := commitDayQuery_eq_day_filter table tz u date hdate
  simp [getCommitStatsDb, getCommitStats, mapGet, hq, List.map_map, Function.comp_def]

/-- C3 witness: three commits at 09:10, 09:40 and 10:05 (UTC offsets 0) on
1970-01-02 give `count = 3` and `hours = 2`. -/
theorem getCommitStats_day_count_and_hours_witness :
    msPerDay ≤ msPerDay + msPerHour
    ∧ (getCommitStatsDb
        [⟨"u", "alpha", "h1", none, msPerDay + 9 * msPerHour + 10 * 60000⟩,
         ⟨"u", "alpha", "h2", none, msPerDay + 9 * msPerHour + 40 * 60000⟩,
         ⟨"u", "alpha", "h3", none, msPerDay + 10 * msPerHour + 5 * 60000⟩]
        [] 0 0 "u" (msPerDay + msPerHour)).result
      = ⟨([⟨"u", "alpha", "h1", none, msPerDay + 9 * msPerHour + 10 * 60000⟩,
           ⟨"u", "alpha", "h2", none, msPerDay + 9 * msPerHour + 40 * 60000⟩,
           (⟨"u", "alpha", "h3", none, msPerDay + 10 * msPerHour + 5 * 60000⟩ : CommitRow)].filter
            (fun r => r.user_id == "u"
              && localDay 0 r.commit_timestamp == localDay 0 (msPerDay + msPerHour))).length,
         (([⟨"u", "alpha", "h1", none, msPerDay + 9 * msPerHour + 10 * 60000⟩,
            ⟨"u", "alpha", "h2", none, msPerDay + 9 * msPerHour + 40 * 60000⟩,
            (⟨"u", "alpha", "h3", none, msPerDay + 10 * msPerHour + 5 * 60000⟩ : CommitRow)].filter
            (fun r => r.user_id == "u"
              && localDay 0 r.commit_timestamp == localDay 0 (msPerDay + msPerHour))).map
            (fun r => localHour 0 r.commit_timestamp)).dedup.length⟩
    ∧ (getCommitStatsDb
        [⟨"u", "alpha", "h1", none, msPerDay + 9 * msPerHour + 10 * 60000⟩,
         ⟨"u", "alpha", "h2", none, msPerDay + 9 * msPerHour + 40 * 60000⟩,
         ⟨"u", "alpha", "h3", none, msPerDay + 10 * msPerHour + 5 * 60000⟩]
        [] 0 0 "u" (msPerDay + msPerHour)).result = ⟨3, 2⟩ := by
  refine ⟨by decide, ?_, by decide⟩
  exact getCommitStats_day_count_and_hours
    [⟨"u", "alpha", "h1", none, msPerDay + 9 * msPerHour + 10 * 60000⟩,
     ⟨"u", "alpha", "h2", none, msPerDay + 9 * msPerHour + 40 * 60000⟩,
     ⟨"u", "alpha", "h3", none, msPerDay + 10 * msPerHour + 5 * 60000⟩]
    0 0 "u" (msPerDay + msPerHour) (by decide)

/-- C8 counterexample: a push event whose payload carries an *empty* commit
list passes the `'commits' in payload` test and is returned, so the claim
that such events are excluded is false. -/
theorem getCommits_keeps_empty_commit_list :
    (⟨"PushEvent", "r", none, some []⟩ : GhEvent)
        ∈ (GitHubService.getCommits 0 [⟨"PushEvent", "r", none, some []⟩]).2
    ∧ (⟨"PushEvent", "r", none, some []⟩ : GhEvent).payload_commits = some [] := by
  decide

/-- C8 (amended): `getCommits since` requests up to the 100 most recent
events for the authenticated identity since the given time, and keeps
exactly the events of kind `PushEvent` whose payload has a `commits` field —
possibly an empty one; events of other kinds, and push events lacking the
field, are excluded. -/
theorem getCommits_spec (since : Nat) (apiEvents : List GhEvent) :
    ((GitHubService.getCommits since apiEvents).1.username = "me"
      ∧ (GitHubService.getCommits since apiEvents).1.per_page = 100
      ∧ (GitHubService.getCommits since apiEvents).1.since = since)
    ∧ ∀ ev : GhEvent,
        ev ∈ (GitHubService.getCommits since apiEvents).2
          ↔ ev ∈ apiEvents ∧ ev.type = "PushEvent" ∧ ev.payload_commits.isSome := by
  refine ⟨⟨rfl, rfl, rfl⟩, fun ev => ?_⟩
  simp [GitHubService.getCommits, List.mem_filter, and_assoc]

/-- C2: at January 2024 with the month's insights `[Jan 2, Jan 1]` (one
commit each, the store's newest-first order), the first weekly bucket sums
only one commit: testing the first insight mutated `weekStart` seven days
forward, so the second same-week insight fails `insightDate >= weekStart`
and is dropped.  A faithful partition of the same data puts both insights in
the calendar week starting Sunday 2023-12-31 (epoch day 19722), for a sum of
2. -/
theorem weeklyData_mutating_filter_drops_rows :
    (weeklyData 19723 19753
        [⟨19724, some 50, some 50, 1, 0⟩, ⟨19723, some 50, some 50, 1, 0⟩]).map (·.commits)
      = [1, 0, 0, 0, 0]
    ∧ specWeekInsights 19722
        [⟨19724, some 50, some 50, 1, 0⟩, ⟨19723, some 50, some 50, 1, 0⟩]
      = [⟨19724, some 50, some 50, 1, 0⟩, ⟨19723, some 50, some 50, 1, 0⟩]
    ∧ ((specWeekInsights 19722
        [⟨19724, some 50, some 50, 1, 0⟩, ⟨19723, some 50, some 50, 1, 0⟩]).map
        (·.commit_count)).sum = 2 := by
  refine ⟨by decide, by decide, by decide⟩

/-! ### Sync-loop lemmas (towards C1) -/

theorem insertNoConflict_eq (table : List CommitRow) (r : CommitRow) :
    insertNoConflict table r
      = if hasKey table r.user_id r.commit_hash then table else table ++ [r] := by
  by_cases h : hasKey table r.user_id r.commit_hash <;>
    simp [insertNoConflict, supabaseInsertCommit, h]

theorem hasKey_iff (t : List CommitRow) (u h : String) :
    hasKey t u h = true ↔ ∃ q ∈ t, q.user_id = u ∧ q.commit_hash = h := by
  simp [hasKey, List.any_eq_true]

/-- The first projection of a fold over paired state follows the fold of the
first-component transition. -/
theorem foldl_fst {σ κ α : Type} (step : σ × κ → α → σ × κ) (g : σ → α → σ)
    (hg : ∀ st a, (step st a).1 = g st.1 a) (l : List α) (st : σ × κ) :
    (l.foldl step st).1 = l.foldl g st.1 := by
  induction l generalizing st with
  | nil => rfl
  | cons a t ih => rw [List.foldl_cons, List.foldl_cons, ih, hg]

theorem addCommitRecordDb_fst (st : List CommitRow × CommitCache) (r : CommitRow) :
    (addCommitRecordDb st r).1 = insertNoConflict st.1 r := by
  rcases hsi : supabaseInsertCommit st.1 r with ⟨resp, t2⟩
  rcases har : addCommitRecord st.2 resp with ⟨ret, c2⟩
  simp [addCommitRecordDb, insertNoConflict, hsi, har]

theorem syncCommits_table_eq (u : String) (nowTs : Nat) (events : List GhEvent)
    (st : List CommitRow × CommitCache) :
    (syncCommits u nowTs events st).2.1
      = (rowsOf u nowTs events).foldl insertNoConflict st.1 := by
  have hstep : ∀ (s : List CommitRow × CommitCache) (ev : GhEvent),
      ((match ev.payload_commits with
        | none => s
        | some cs => cs.foldl (fun s cd => addCommitRecordDb s (syncRow u nowTs ev cd)) s) :
          List CommitRow × CommitCache).1
        = syncEventTable u nowTs s.1 ev := by
    intro s ev
    cases hc : ev.payload_commits with
    | none => simp [syncEventTable, hc]
    | some cs =>
      simp only [hc, syncEventTable, Option.getD_some, List.foldl_map]
      exact foldl_fst _ _ (fun s cd => addCommitRecordDb_fst s (syncRow u nowTs ev cd)) cs s
  show (events.foldl _ st).1 = _
  rw [foldl_fst _ (syncEventTable u nowTs) hstep events st]
  clear hstep
  induction events generalizing st with
  | nil => rfl
  | cons ev evs ih =>
    rw [List.foldl_cons, rowsOf, List.flatMap_cons, List.foldl_append]
    have := ih (syncEventTable u nowTs st.1 ev, st.2)
    rw [rowsOf] at this
    exact this

theorem uniq_insertNoConflict (t : List CommitRow) (r : CommitRow)
    (hu : CommitUniq t) : CommitUniq (insertNoConflict t r) := by
  rw [insertNoConflict_eq]
  by_cases h : hasKey t r.user_id r.commit_hash
  · simpa [h] using hu
  · rw [if_neg h]
    have hp : List.Pairwise
        (fun a b => ¬(a.user_id = b.user_id ∧ a.commit_hash = b.commit_hash)) (t ++ [r]) := by
      rw [List.pairwise_append]
      refine ⟨hu, List.pairwise_singleton _ _, fun a ha b hb => ?_⟩
      rw [List.mem_singleton] at hb
      rintro ⟨h1, h2⟩
      rw [hb] at h1 h2
      exact h ((hasKey_iff t r.user_id r.commit_hash).mpr ⟨a, ha, h1, h2⟩)
    exact hp

theorem uniq_foldl (rs : List CommitRow) (t : List CommitRow) (hu : CommitUniq t) :
    CommitUniq (rs.foldl insertNoConflict t) := by
  induction rs generalizing t with
  | nil => exact hu
  | cons r rs ih => exact ih _ (uniq_insertNoConflict t r hu)

theorem hasKey_insertNoConflict_mono (t : List CommitRow) (r : CommitRow)
    (u h : String) (hk : hasKey t u h = true) :
    hasKey (insertNoConflict t r) u h = true := by
  rw [insertNoConflict_eq]
  by_cases hc : hasKey t r.user_id r.commit_hash
  · simpa [hc] using hk
  · rw [if_neg hc]
    simp only [hasKey, List.any_append] at *
    simp [hk]

theorem hasKey_insertNoConflict_self (t : List CommitRow) (r : CommitRow) :
    hasKey (insertNoConflict t r) r.user_id r.commit_hash = true := by
  rw [insertNoConflict_eq]
  by_cases hc : hasKey t r.user_id r.commit_hash
  · simp [hc]
  · rw [if_neg hc]
    simp [hasKey, List.any_append]

theorem hasKey_foldl_mono (rs : List CommitRow) (t : List CommitRow)
    (u h : String) (hk : hasKey t u h = true) :
    hasKey (rs.foldl insertNoConflict t) u h = true := by
  induction rs generalizing t with
  | nil => exact hk
  | cons r rs ih => exact ih _ (hasKey_insertNoConflict_mono t r u h hk)

theorem hasKey_foldl_mem (rs : List CommitRow) (t : List CommitRow)
    (r : CommitRow) (hr : r ∈ rs) :
    hasKey (rs.foldl insertNoConflict t) r.user_id r.commit_hash = true := by
  induction rs generalizing t with
  | nil => cases hr
  | cons a rs ih =>
    rcases List.mem_cons.mp hr with h | h
    · subst h
      exact hasKey_foldl_mono rs _ _ _ (hasKey_insertNoConflict_self t r)
    · exact ih (insertNoConflict t a) h

theorem foldl_insertNoConflict_noop (rs : List CommitRow) (t : List CommitRow)
    (h : ∀ r ∈ rs, hasKey t r.user_id r.commit_hash = true) :
    rs.foldl insertNoConflict t = t := by
  induction rs with
  | nil => rfl
  | cons r rs ih =>
    rw [List.foldl_cons, insertNoConflict_eq, if_pos (h r (List.mem_cons_self r rs))]
    exact ih fun q hq => h q (List.mem_cons_of_mem r hq)

/-- Rows attempted by a re-run differ at most in the fallback timestamp: the
dedup key of every row of the second run already appears among the rows of
the first. -/
theorem rowsOf_key_mem (u : String) (n1 n2 : Nat) (events : List GhEvent)
    (r : CommitRow) (hr : r ∈ rowsOf u n2 events) :
    ∃ r1 ∈ rowsOf u n1 events,
      r1.user_id = r.user_id ∧ r1.commit_hash = r.commit_hash := by
  simp only [rowsOf, List.mem_flatMap, List.mem_map] at hr ⊢
  obtain ⟨ev, hev, cd, hcd, rfl⟩ := hr
  exact ⟨syncRow u n1 ev cd, ⟨ev, hev, cd, hcd, rfl⟩, rfl, rfl⟩

/-- C1: the per-user `(user id, commit hash)` uniqueness invariant is
preserved by `syncCommits`; re-running it over the same event window (at a
possibly different wall-clock time) leaves the commit table unchanged — no
duplicate rows — and still reports success, because a conflicting insert is
answered by the store's unique constraint and swallowed by
`addCommitRecord` into a `null` return that leaves table and cache alone. -/
theorem syncCommits_unique_and_idempotent (u : String) (now1 now2 : Nat)
    (events : List GhEvent) (table : List CommitRow) (c1 c2 : CommitCache)
    (huniq : CommitUniq table) :
    CommitUniq (syncCommits u now1 events (table, c1)).2.1
    ∧ (syncCommits u now2 events ((syncCommits u now1 events (table, c1)).2.1, c2)).2.1
        = (syncCommits u now1 events (table, c1)).2.1
    ∧ (syncCommits u now1 events (table, c1)).1 = true
    ∧ ∀ r : CommitRow, hasKey table r.user_id r.commit_hash = true →
        (supabaseInsertCommit table r).2 = table
        ∧ addCommitRecord c1 (supabaseInsertCommit table r).1 = (none, c1) := by
  have h1 := syncCommits_table_eq u now1 events (table, c1)
  refine ⟨?_, ?_, rfl, ?_⟩
  · rw [h1]
    exact uniq_foldl _ _ huniq
  · rw [syncCommits_table_eq, h1]
    apply foldl_insertNoConflict_noop
    intro r hr
    obtain ⟨r1, hr1, he1, he2⟩ := rowsOf_key_mem u now1 now2 events r hr
    rw [← he1, ← he2]
    exact hasKey_foldl_mem _ _ _ hr1
  · intro r h
    refine ⟨?_, ?_⟩ <;> simp [supabaseInsertCommit, addCommitRecord, h]

/-- C1 witness: an empty table, one push event with two commits, synced at
time 5 and re-synced at time 9. -/
theorem syncCommits_unique_and_idempotent_witness :
    CommitUniq ([] : List CommitRow)
    ∧ (CommitUniq (syncCommits "u" 5
        [⟨"PushEvent", "alpha", some 3, some [⟨"s1", none⟩, ⟨"s2", none⟩]⟩]
        ([], [])).2.1
      ∧ (syncCommits "u" 9
          [⟨"PushEvent", "alpha", some 3, some [⟨"s1", none⟩, ⟨"s2", none⟩]⟩]
          ((syncCommits "u" 5
            [⟨"PushEvent", "alpha", some 3, some [⟨"s1", none⟩, ⟨"s2", none⟩]⟩]
            ([], [])).2.1, [])).2.1
        = (syncCommits "u" 5
            [⟨"PushEvent", "alpha", some 3, some [⟨"s1", none⟩, ⟨"s2", none⟩]⟩]
            ([], [])).2.1
      ∧ (syncCommits "u" 5
          [⟨"PushEvent", "alpha", some 3, some [⟨"s1", none⟩, ⟨"s2", none⟩]⟩]
          ([], [])).1 = true
      ∧ ∀ r : CommitRow, hasKey [] r.user_id r.commit_hash = true →
          (supabaseInsertCommit [] r).2 = []
          ∧ addCommitRecord [] (supabaseInsertCommit [] r).1 = (none, [])) :=
  ⟨List.Pairwise.nil,
    syncCommits_unique_and_idempotent "u" 5 9
      [⟨"PushEvent", "alpha", some 3, some [⟨"s1", none⟩, ⟨"s2", none⟩]⟩]
      [] [] [] List.Pairwise.nil⟩
